import Mathlib

/-!
Verification of the REST gateway (`src/rest.cpp`) of this repository.

The development shallowly embeds the request-format negotiation and the
UTXO-query protocol of `rest.cpp`.  C++ strings are modelled as `List Char`
(URI path text) or `List Nat` (raw byte strings: HTTP bodies and wire
serializations); machine integers are `Nat`/`Int` with explicit reductions
modulo powers of two where the code relies on wrap-around.  External
collaborators (serialization primitives, the coin views, the hex helpers)
are modelled from the specification, each marked in its doc comment.
-/

namespace RestGateway

/-- Decidable equality for `Except` results, used to evaluate concrete
handler outcomes. -/
instance {ε α : Type} [DecidableEq ε] [DecidableEq α] : DecidableEq (Except ε α) := fun x y =>
  match x, y with
  | .error a, .error b =>
    if h : a = b then isTrue (by rw [h]) else isFalse (fun hh => h (by injection hh))
  | .ok a, .ok b =>
    if h : a = b then isTrue (by rw [h]) else isFalse (fun hh => h (by injection hh))
  | .error _, .ok _ => isFalse (fun hh => Except.noConfusion hh)
  | .ok _, .error _ => isFalse (fun hh => Except.noConfusion hh)

/-! ## HTTP status codes (enum HTTPStatusCode, rpcprotocol.h) -/

def HTTP_OK : Nat := 200
def HTTP_BAD_REQUEST : Nat := 400
def HTTP_NOT_FOUND : Nat := 404
def HTTP_INTERNAL_SERVER_ERROR : Nat := 500
def HTTP_SERVICE_UNAVAILABLE : Nat := 503

/-- `class RestErr` (rest.cpp lines 59-64): an HTTP status plus a message. -/
structure RestErr where
  status : Nat
  message : String
deriving DecidableEq, Repr

/-- `enum RetFormat` (rest.cpp lines 26-31). -/
inductive RetFormat
  | RF_UNDEF
  | RF_BINARY
  | RF_HEX
  | RF_JSON
deriving DecidableEq, Repr

/-- The `rf_names` table (rest.cpp lines 33-41), suffixes as char lists. -/
def rfNames : List (RetFormat × List Char) :=
  [(RetFormat.RF_UNDEF, []),
   (RetFormat.RF_BINARY, ['b', 'i', 'n']),
   (RetFormat.RF_HEX, ['h', 'e', 'x']),
   (RetFormat.RF_JSON, ['j', 's', 'o', 'n'])]

/-! ## ParseDataFormat (rest.cpp lines 78-94) -/

/-- `std::string::rfind(c)`: index of the last occurrence of `c`, if any. -/
def rfindChar (c : Char) : List Char → Option Nat
  | [] => none
  | a :: rest =>
    match rfindChar c rest with
    | some i => some (i + 1)
    | none => if a = c then some 0 else none

/-- The linear scan of `rf_names` (rest.cpp lines 90-93): the first entry
whose name equals the suffix wins; no match returns `rf_names[0].rf`. -/
def lookupRfName : List (RetFormat × List Char) → List Char → RetFormat
  | [], _ => RetFormat.RF_UNDEF
  | (rf, name) :: rest, suff => if suff = name then rf else lookupRfName rest suff

/-- `ParseDataFormat` (rest.cpp lines 78-94): split the request segment at
the last dot; no dot means the whole segment is the parameter with format
`RF_UNDEF`; otherwise the suffix after the last dot selects the format. -/
def ParseDataFormat (strReq : List Char) : List Char × RetFormat :=
  match rfindChar '.' strReq with
  | none => (strReq, RetFormat.RF_UNDEF)
  | some pos => (strReq.take pos, lookupRfName rfNames (strReq.drop (pos + 1)))

/-- Specification-side suffix table, transcribed from the claim: the suffix
after the last dot is matched case-sensitively against "", "bin", "hex",
"json"; an unrecognized suffix yields the undefined format. -/
def specFormatOfSuffix (suff : List Char) : RetFormat :=
  if suff = [] then RetFormat.RF_UNDEF
  else if suff = ['b', 'i', 'n'] then RetFormat.RF_BINARY
  else if suff = ['h', 'e', 'x'] then RetFormat.RF_HEX
  else if suff = ['j', 's', 'o', 'n'] then RetFormat.RF_JSON
  else RetFormat.RF_UNDEF

/-! ## DecodeName (rest.cpp lines 121-167)

The C++ works on `std::string` bytes; we model the encoded input and the
decoded output as lists of byte values (`Nat`).  `'+'` is byte 43, `'%'`
is byte 37, space is byte 32. -/

/-- One iteration of the `BOOST_FOREACH` hex-digit fold in `DecodeName`
(rest.cpp lines 140-154): shift the accumulator, then add the digit value,
using the `c |= (1 << 5)` trick for case-insensitive letters. -/
def hexCharStep (intChar : Nat) (c : Nat) : Option Nat :=
  let shifted := intChar <<< 4
  if 48 ≤ c ∧ c ≤ 57 then some (shifted + (c - 48))
  else
    let c2 := c ||| (1 <<< 5)
    if 97 ≤ c2 ∧ c2 ≤ 102 then some (shifted + (c2 - 97 + 10))
    else none

/-- The two-character fold producing `intChar` (rest.cpp lines 139-154). -/
def decodeHexPair (c1 c2 : Nat) : Option Nat :=
  match hexCharStep 0 c1 with
  | none => none
  | some v1 => hexCharStep v1 c2

/-- `DecodeName` (rest.cpp lines 121-167): '+' becomes a space byte, '%'
consumes the two following characters as hex (failing if fewer than two
remain, line 134, or if either is not a hex digit), every other byte is
copied verbatim. -/
def DecodeName : List Nat → Option (List Nat)
  | [] => some []
  | c :: rest =>
    if c = 43 then (DecodeName rest).map (fun d => 32 :: d)
    else if c = 37 then
      match rest with
      | c1 :: c2 :: rest2 =>
        match decodeHexPair c1 c2 with
        | none => none
        | some v => (DecodeName rest2).map (fun d => v :: d)
      | _ => none
    else (DecodeName rest).map (fun d => c :: d)

/-- Specification-side byte classification: decimal digit, lowercase hex
letter, or uppercase hex letter. -/
def isHexDigitByte (c : Nat) : Prop :=
  (48 ≤ c ∧ c ≤ 57) ∨ (97 ≤ c ∧ c ≤ 102) ∨ (65 ≤ c ∧ c ≤ 70)

instance (c : Nat) : Decidable (isHexDigitByte c) := by
  unfold isHexDigitByte
  infer_instance

/-- Specification-side hex digit value (case-insensitive). -/
def hexDigitValue (c : Nat) : Nat :=
  if 48 ≤ c ∧ c ≤ 57 then c - 48
  else if 97 ≤ c ∧ c ≤ 102 then c - 87
  else if 65 ≤ c ∧ c ≤ 70 then c - 55
  else 0

/-- Specification-side decoder, transcribed from the claim: '+' (byte 43)
maps to a space byte, '%' (byte 37) followed by exactly two case-insensitive
hex digits maps to the byte with that value, every other character is copied
verbatim, and a '%' followed by fewer than two characters or by a non-hex
character fails; on success the output is exactly the concatenation of the
decodings in input order. -/
def decodeNameSpec : List Nat → Option (List Nat)
  | [] => some []
  | c :: rest =>
    if c = 43 then (decodeNameSpec rest).map (fun d => 32 :: d)
    else if c = 37 then
      match rest with
      | c1 :: c2 :: rest2 =>
        if isHexDigitByte c1 ∧ isHexDigitByte c2 then
          (decodeNameSpec rest2).map (fun d => (16 * hexDigitValue c1 + hexDigitValue c2) :: d)
        else none
      | _ => none
    else (decodeNameSpec rest).map (fun d => c :: d)

/-! ## UTXO query data model (rest.cpp lines 43-57, 389-583)

`uint256` transaction ids are modelled as `Nat` values below `2^256`;
`uint32` indices as `Nat`.  `CTxOut` (primitives/transaction.h, external
to src/) is modelled from the spec as a value plus a locking script. -/

/-- `COutPoint` (primitives/transaction.h): (txid, output index). -/
structure COutPoint where
  hash : Nat
  n : Nat
deriving DecidableEq, Repr

/-- Modelled from the spec: a transaction output, "out: value + locking
script" (spec section 3, CoinRecord); `CTxOut` itself lives outside src/. -/
structure CTxOut where
  nValue : Int
  scriptPubKey : List Nat
deriving DecidableEq, Repr

/-- `struct CCoin` (rest.cpp lines 43-57): tx version, height, output. -/
structure CCoin where
  nTxVer : Nat
  nHeight : Nat
  out : CTxOut
deriving DecidableEq, Repr

/-- Modelled from the spec: the per-transaction coin record consulted by
the UTXO loop (`CCoins`, coins.h, external to src/).  `vout` holds one
entry per output position; `none` stands for a null (already spent)
entry, so `IsAvailable n` is "n in range and entry not null". -/
structure CCoins where
  nVersion : Nat
  nHeight : Nat
  vout : List (Option CTxOut)
deriving DecidableEq, Repr

/-- The shared chain/mempool state read by the handler under the lock:
confirmed coin records by txid, overlay coin records supplied by
unconfirmed transactions, the set of outpoints consumed by unconfirmed
transactions, and the active chain height and tip hash. -/
structure ChainState where
  chainCoins : Nat → Option CCoins
  mempoolCoins : Nat → Option CCoins
  mempoolSpent : Nat → Nat → Bool
  height : Int
  tipHash : Nat

/-- Modelled from the spec: the composed coin-lookup view (spec section
4.4).  The chain-only variant reads confirmed state; with the mempool
flag the overlay also resolves records that exist only in the
unconfirmed pool (`CCoinsViewMemPool`, coins.h/txmempool.h, external to
src/).  Built at rest.cpp lines 494-501. -/
def viewGetCoins (cs : ChainState) (fCheckMemPool : Bool) (hash : Nat) : Option CCoins :=
  if fCheckMemPool then
    match cs.chainCoins hash with
    | some c => some c
    | none => cs.mempoolCoins hash
  else cs.chainCoins hash

/-- Walk a `vout` list nulling every entry whose position the mempool has
already spent; `i` is the position of the list head. -/
def pruneVout (spent : Nat → Bool) : Nat → List (Option CTxOut) → List (Option CTxOut)
  | _, [] => []
  | i, o :: rest => (if spent i then none else o) :: pruneVout spent (i + 1) rest

/-- Modelled from the spec: `mempool.pruneSpent(hash, coins)` (txmempool,
external to src/) "removes record entries that unconfirmed spends have
already consumed" (spec section 4.4); called at rest.cpp line 507. -/
def mempoolPruneSpent (cs : ChainState) (hash : Nat) (coins : CCoins) : CCoins :=
  { coins with vout := pruneVout (cs.mempoolSpent hash) 0 coins.vout }

/-- One iteration of the spentness loop (rest.cpp lines 503-519) for a
single outpoint: look up the owning record, prune mempool-spent entries,
then hit-test position `n`; a hit yields the `CCoin` snapshot. -/
def outpointHit (cs : ChainState) (fCheckMemPool : Bool) (op : COutPoint) : Option CCoin :=
  match viewGetCoins cs fCheckMemPool op.hash with
  | none => none
  | some coins0 =>
    let coins := mempoolPruneSpent cs op.hash coins0
    match coins.vout.get? op.n with
    | some (some out) => some ⟨coins.nVersion, coins.nHeight, out⟩
    | _ => none

/-- The spentness loop (rest.cpp lines 503-522) with its two
accumulators: the `hits` bitset (one bit appended per outpoint, in input
order) and the `outs` hit list (one record appended per set bit). -/
def utxoLoopGo (cs : ChainState) (fCheckMemPool : Bool) :
    List COutPoint → List Bool → List CCoin → List Bool × List CCoin
  | [], hits, outs => (hits, outs)
  | op :: rest, hits, outs =>
    match outpointHit cs fCheckMemPool op with
    | some coin => utxoLoopGo cs fCheckMemPool rest (hits ++ [true]) (outs ++ [coin])
    | none => utxoLoopGo cs fCheckMemPool rest (hits ++ [false]) outs

/-- The whole spentness phase: run the loop on empty accumulators. -/
def utxoLoop (cs : ChainState) (fCheckMemPool : Bool) (ops : List COutPoint) :
    List Bool × List CCoin :=
  utxoLoopGo cs fCheckMemPool ops [] []

/-- The human-readable bitmap built alongside the loop (rest.cpp line
521): one '1' or '0' character per queried outpoint, in input order. -/
def bitmapStringRep (hits : List Bool) : List Char :=
  hits.map (fun b => if b then '1' else '0')

/-! ## Serialization of the response (rest.cpp lines 526-545)

Modelled from the spec (section 6): the `CDataStream` primitives live in
serialize.h/streams.h, outside src/; the spec fixes the layout as 4-byte
little-endian height, 32-byte tip hash, length-prefixed bitmap bytes,
then the count-prefixed coin list (4-byte tx version, 4-byte height,
8-byte value, length-prefixed script). -/

/-- `k` little-endian bytes of `n` (modelled from the spec, section 6). -/
def leBytes (k : Nat) (n : Nat) : List Nat :=
  (List.range k).map (fun i => n / 256 ^ i % 256)

/-- Bitcoin compact-size length prefix (modelled from the spec's
"count-prefixed" / "length-prefixed" fields; serialize.h is external). -/
def compactSize (n : Nat) : List Nat :=
  if n < 253 then [n]
  else if n < 2 ^ 16 then 253 :: leBytes 2 n
  else if n < 2 ^ 32 then 254 :: leBytes 4 n
  else 255 :: leBytes 8 n

/-- Serialize a signed 32-bit value as its two's-complement bytes. -/
def serInt32 (i : Int) : List Nat :=
  leBytes 4 (i % (2 ^ 32 : Int)).toNat

/-- Length-prefixed byte vector. -/
def serByteVec (bs : List Nat) : List Nat :=
  compactSize bs.length ++ bs

/-- Serialize one `CTxOut`: 8-byte value then length-prefixed script. -/
def serTxOut (o : CTxOut) : List Nat :=
  leBytes 8 (o.nValue % (2 ^ 64 : Int)).toNat ++ serByteVec o.scriptPubKey

/-- Serialize one `CCoin` (rest.cpp lines 50-56): version, height, out. -/
def serCCoin (c : CCoin) : List Nat :=
  leBytes 4 (c.nTxVer % 2 ^ 32) ++ leBytes 4 (c.nHeight % 2 ^ 32) ++ serTxOut c.out

/-- Count-prefixed coin list. -/
def serCoinList (outs : List CCoin) : List Nat :=
  compactSize outs.length ++ (outs.map serCCoin).flatten

/-- Modelled from the spec: `boost::to_block_range` packing of the hit
bitset (rest.cpp line 524); "bit order: outpoint 0 in the lowest-order
position of the first byte" (spec section 4.5). -/
def packBits (hits : List Bool) : List Nat :=
  (List.range ((hits.length + 7) / 8)).map (fun byteIdx =>
    (List.range 8).foldl
      (fun acc bitIdx => acc + (if hits.getD (8 * byteIdx + bitIdx) false then 2 ^ bitIdx else 0))
      0)

/-- The serialized getutxos response, built identically by the binary and
hex branches (rest.cpp lines 530-531 and 539-540). -/
def serUtxoResponse (height : Int) (tipHash : Nat) (bitmap : List Nat) (outs : List CCoin) :
    List Nat :=
  serInt32 height ++ leBytes 32 tipHash ++ serByteVec bitmap ++ serCoinList outs

/-- The lowercase hex digit table of `HexStr` (utilstrencodings, external
to src/; the spec calls the output "lowercase hex text"): the characters
of "0123456789abcdef" built from their code points. -/
def hexmapChars : List Char :=
  (List.range 16).map (fun i => if i < 10 then Char.ofNat (48 + i) else Char.ofNat (87 + i))

/-- Modelled from the spec: `HexStr` (utilstrencodings, external to
src/): each byte becomes its high then low nibble drawn from the
lowercase digit table. -/
def hexStr : List Nat → List Char
  | [] => []
  | b :: bs =>
    hexmapChars.getD ((b % 256) >>> 4) '0' :: hexmapChars.getD ((b % 256) &&& 15) '0' :: hexStr bs

/-- Specification-side inverse of the hex rendering: index of a lowercase
hex character in the digit table. -/
def hexCharIdx (c : Char) : Option Nat :=
  if c = '0' then some 0 else if c = '1' then some 1
  else if c = '2' then some 2 else if c = '3' then some 3
  else if c = '4' then some 4 else if c = '5' then some 5
  else if c = '6' then some 6 else if c = '7' then some 7
  else if c = '8' then some 8 else if c = '9' then some 9
  else if c = 'a' then some 10 else if c = 'b' then some 11
  else if c = 'c' then some 12 else if c = 'd' then some 13
  else if c = 'e' then some 14 else if c = 'f' then some 15
  else none

/-- Specification-side strict pair decoder for lowercase hex text. -/
def hexPairsToBytes : List Char → Option (List Nat)
  | [] => some []
  | [_] => none
  | c1 :: c2 :: rest =>
    match hexCharIdx c1, hexCharIdx c2 with
    | some h1, some h2 => (hexPairsToBytes rest).map (fun bs => (h1 * 16 + h2) :: bs)
    | _, _ => none

/-- The binary response body (rest.cpp lines 527-535). -/
def restUtxoBinaryBody (cs : ChainState) (hits : List Bool) (outs : List CCoin) : List Nat :=
  serUtxoResponse cs.height cs.tipHash (packBits hits) outs

/-- The hex response body (rest.cpp lines 538-544): hex text of the same
serialization plus a trailing newline. -/
def restUtxoHexBody (cs : ChainState) (hits : List Bool) (outs : List CCoin) : List Char :=
  hexStr (serUtxoResponse cs.height cs.tipHash (packBits hits) outs) ++ ['\n']

/-! ## Input resolution of rest_getutxos (rest.cpp lines 395-480) -/

/-- `MAX_GETUTXOS_OUTPOINTS` (rest.cpp line 24). -/
def MAX_GETUTXOS_OUTPOINTS : Nat := 15

/-- `AvailableDataFormatsString` (rest.cpp lines 96-110). -/
def AvailableDataFormatsString : String :=
  let names : List String := ["", "bin", "hex", "json"]
  let formats := names.foldl (fun acc n => if n.length > 0 then acc ++ "." ++ n ++ ", " else acc) ""
  if formats.length > 0 then ((formats.toList.take (formats.length - 2)).asString : String)
  else formats

/-- `boost::split` on '/' without token compression (rest.cpp line 402):
always at least one token, adjacent separators give empty tokens. -/
def splitSlash (s : List Char) : List (List Char) :=
  s.foldr
    (fun c acc =>
      if c = '/' then [] :: acc
      else
        match acc with
        | t :: ts => (c :: t) :: ts
        | [] => [[c]])
    [[]]

/-- The URI parts extraction (rest.cpp lines 398-403): only a parameter
longer than one character is split (past its leading slash). -/
def uriPartsOf (param : List Char) : List (List Char) :=
  if param.length > 1 then splitSlash (param.drop 1) else []

/-- Index of the first occurrence of a character, `std::string::find`. -/
def findIdxChar (c : Char) : List Char → Option Nat
  | [] => none
  | a :: rest => if a = c then some 0 else (findIdxChar c rest).map (fun i => i + 1)

/-- Decimal digit run value; `none` when empty or any non-digit. -/
def parseDigits : List Char → Option Nat
  | [] => none
  | [c] => if '0' ≤ c ∧ c ≤ '9' then some (c.toNat - 48) else none
  | c :: rest =>
    if '0' ≤ c ∧ c ≤ '9' then
      (parseDigits rest).map (fun n => (c.toNat - 48) * 10 ^ rest.length + n)
    else none

/-- Modelled from the spec: `ParseInt32` (utilstrencodings, external to
src/); "the index must parse as a 32-bit integer" (spec section 4.5):
optional minus sign, decimal digits, 32-bit signed range check. -/
def parseInt32 (s : List Char) : Option Int :=
  match s with
  | '-' :: ds =>
    (parseDigits ds).bind (fun n => if n ≤ 2 ^ 31 then some (-(n : Int)) else none)
  | _ => (parseDigits s).bind (fun n => if n < 2 ^ 31 then some ((n : Int)) else none)

/-- A hex-digit character test over path text. -/
def isHexChar (c : Char) : Bool :=
  ('0' ≤ c ∧ c ≤ '9') ∨ ('a' ≤ c ∧ c ≤ 'f') ∨ ('A' ≤ c ∧ c ≤ 'F')

/-- Modelled from the spec: `IsHex` (utilstrencodings, external to src/);
"the id must be valid hex" (spec section 4.5): nonempty, all hex digits. -/
def IsHexStr (s : List Char) : Bool :=
  s ≠ [] && s.all isHexChar

/-- Value of one hex character (0 for others; callers check `isHexChar`). -/
def hexCharValue (c : Char) : Nat :=
  if '0' ≤ c ∧ c ≤ '9' then c.toNat - 48
  else if 'a' ≤ c ∧ c ≤ 'f' then c.toNat - 87
  else if 'A' ≤ c ∧ c ≤ 'F' then c.toNat - 55
  else 0

/-- Modelled from the spec: `uint256::SetHex` (uint256.h, external to
src/); the textual id denotes a 256-bit hash value. -/
def hexToNat (s : List Char) : Nat :=
  s.foldl (fun acc c => 16 * acc + hexCharValue c) 0 % 2 ^ 256

/-- The "Parse error" failure used by the URI loop (rest.cpp line 431). -/
def parseErr : RestErr := ⟨HTTP_INTERNAL_SERVER_ERROR, "Parse error"⟩

/-- The "empty request" failure (rest.cpp lines 407, 440, 474). -/
def emptyReqErr : RestErr := ⟨HTTP_INTERNAL_SERVER_ERROR, "Error: empty request"⟩

/-- One URI token `<txid>-<n>` (rest.cpp lines 425-434): split at the
first '-' (with no '-', `substr(0, npos)` keeps the whole token and
`substr(npos + 1)` wraps to the whole token as well); the output index
must parse as a 32-bit integer and the id must be hex, else the whole
request fails; the index is then cast to `uint32_t`. -/
def parseUriOutpoint (part : List Char) : Except RestErr COutPoint :=
  let pos := findIdxChar '-' part
  let strTxid := part.take (pos.getD part.length)
  let strOutput := part.drop (match pos with | some p => p + 1 | none => 0)
  match parseInt32 strOutput with
  | none => .error parseErr
  | some nOutput =>
    if IsHexStr strTxid then
      .ok ⟨hexToNat strTxid, (nOutput % (2 ^ 32 : Int)).toNat⟩
    else .error parseErr

/-- The URI channel (rest.cpp lines 416-441), for a nonempty parts list:
a leading literal "checkmempool" token sets the flag, every remaining
token is an outpoint, and an empty outpoint list is an empty request. -/
def parseUriChannel (uriParts : List (List Char)) :
    Except RestErr (Bool × List COutPoint) :=
  let fCheckMemPool :=
    decide (uriParts.headD [] = ['c', 'h', 'e', 'c', 'k', 'm', 'e', 'm', 'p', 'o', 'o', 'l'])
  let parts := if fCheckMemPool then uriParts.drop 1 else uriParts
  match parts.mapM parseUriOutpoint with
  | .error e => .error e
  | .ok vOutPoints =>
    if vOutPoints.length > 0 then .ok (fCheckMemPool, vOutPoints)
    else .error emptyReqErr

/-- The guarded URI channel as used by the handler: only consulted when
URI parts are present (rest.cpp line 416); `none` means "nothing was
sent over the URI scheme". -/
def uriChannel (uriParts : List (List Char)) :
    Except RestErr (Option (Bool × List COutPoint)) :=
  if uriParts.length > 0 then (parseUriChannel uriParts).map some else .ok none

/-- Modelled from the spec: hex decoding of the raw body for the hex
input format ("the raw body is first hex-decoded into bytes", spec
section 4.5; `ParseHex` of utilstrencodings is external to src/).  Bytes
are decoded in hex-digit pairs; decoding stops at the first non-pair. -/
def hexDecodeBody : List Nat → List Nat
  | b1 :: b2 :: rest =>
    if isHexDigitByte b1 ∧ isHexDigitByte b2 then
      (16 * hexDigitValue b1 + hexDigitValue b2) :: hexDecodeBody rest
    else []
  | _ => []

/-- Little-endian value of a byte list. -/
def leValue (bs : List Nat) : Nat :=
  bs.foldr (fun b acc => b % 256 + 256 * acc) 0

/-- Modelled from the spec: compact-size read (serialize.h external). -/
def readCompactSize : List Nat → Option (Nat × List Nat)
  | [] => none
  | b :: rest =>
    if b < 253 then some (b, rest)
    else if b = 253 then
      if 2 ≤ rest.length then some (leValue (rest.take 2), rest.drop 2) else none
    else if b = 254 then
      if 4 ≤ rest.length then some (leValue (rest.take 4), rest.drop 4) else none
    else if b = 255 then
      if 8 ≤ rest.length then some (leValue (rest.take 8), rest.drop 8) else none
    else none

/-- Modelled from the spec: one serialized outpoint, "32-byte hash,
4-byte little-endian index" (spec section 6). -/
def readOutPoint (bs : List Nat) : Option (COutPoint × List Nat) :=
  if 36 ≤ bs.length then
    some (⟨leValue (bs.take 32), leValue ((bs.drop 32).take 4)⟩, bs.drop 36)
  else none

/-- Read `n` serialized outpoints in sequence. -/
def readOutPoints : Nat → List Nat → Option (List COutPoint × List Nat)
  | 0, bs => some ([], bs)
  | n + 1, bs =>
    match readOutPoint bs with
    | none => none
    | some (op, rest) =>
      match readOutPoints n rest with
      | none => none
      | some (ops, rest2) => some (op :: ops, rest2)

/-- Modelled from the spec: deserialization of the body channel, "a
boolean 'check mempool' flag followed by the outpoint sequence
(count-prefixed)" (spec sections 4.5 and 6); an underflow is the
unreadable-binary-data failure (rest.cpp lines 460-468). -/
def deserializeGetUtxos (bs : List Nat) : Option (Bool × List COutPoint) :=
  match bs with
  | [] => none
  | b :: rest =>
    match readCompactSize rest with
    | none => none
    | some (n, rest2) => (readOutPoints n rest2).map (fun pr => (b != 0, pr.1))

/-- The shared binary/hex body branch (rest.cpp lines 446-470): `rf` has
already selected the effective body bytes (hex bodies were decoded
first, line 448-449); a non-empty body combined with URI inputs is the
hard channel-combination failure (line 457-458), otherwise a non-empty
body is deserialized (lines 460-463) and an empty body keeps the URI
results. -/
def binHexBody (rf : RetFormat) (strRequestMutable : List Nat) (fInputParsed : Bool)
    (fCheckMemPool : Bool) (vOutPoints : List COutPoint) :
    Except RestErr (RetFormat × Bool × List COutPoint) :=
  if strRequestMutable.length > 0 then
    if fInputParsed then
      .error ⟨HTTP_INTERNAL_SERVER_ERROR,
        "Combination of URI scheme inputs and raw post data is not allowed"⟩
    else
      match deserializeGetUtxos strRequestMutable with
      | none => .error parseErr
      | some r => .ok (rf, r.1, r.2)
  else .ok (rf, fCheckMemPool, vOutPoints)

/-- The format dispatch on the input channel (rest.cpp lines 445-480):
hex falls through to binary after decoding the body; JSON accepts only
fully URI-supplied inputs; an undefined format is the not-found
format failure. -/
def bodyPhase (rf : RetFormat) (uriRes : Option (Bool × List COutPoint))
    (strRequest : List Nat) : Except RestErr (RetFormat × Bool × List COutPoint) :=
  let fCheckMemPool := (uriRes.map (fun r => r.1)).getD false
  let vOutPoints := (uriRes.map (fun r => r.2)).getD []
  let fInputParsed := uriRes.isSome
  match rf with
  | .RF_HEX => binHexBody .RF_HEX (hexDecodeBody strRequest) fInputParsed fCheckMemPool vOutPoints
  | .RF_BINARY => binHexBody .RF_BINARY strRequest fInputParsed fCheckMemPool vOutPoints
  | .RF_JSON =>
    if fInputParsed then .ok (.RF_JSON, fCheckMemPool, vOutPoints)
    else .error emptyReqErr
  | .RF_UNDEF =>
    .error ⟨HTTP_NOT_FOUND, "output format not found (available: " ++ AvailableDataFormatsString ++ ")"⟩

/-- The whole input-resolution phase of `rest_getutxos` (rest.cpp lines
395-480): format negotiation, the completely-empty-request check (line
406-407), the URI channel, then the per-format body handling. -/
def rest_getutxos_parse (strURIPart : List Char) (strRequest : List Nat) :
    Except RestErr (RetFormat × Bool × List COutPoint) :=
  let pr := ParseDataFormat strURIPart
  let uriParts := uriPartsOf pr.1
  if strRequest.length = 0 ∧ uriParts.length = 0 then .error emptyReqErr
  else
    match uriChannel uriParts with
    | .error e => .error e
    | .ok uriRes => bodyPhase pr.2 uriRes strRequest

/-! ## Query execution and response rendering (rest.cpp lines 482-583) -/

/-- The three rendered response shapes (rest.cpp lines 526-579).  The
JSON object is kept structured; its scalar fields mirror lines 552-554
and the hit array mirrors lines 556-569. -/
inductive UtxoReply
  | bin (bytes : List Nat)
  | hexText (text : List Char)
  | json (chainHeight : Int) (chaintipHash : Nat) (bitmap : List Char) (utxos : List CCoin)
deriving DecidableEq, Repr

/-- The count-exceeded message (rest.cpp line 484). -/
def maxOutpointsMsg (tried : Nat) : String :=
  "Error: max outpoints exceeded (max: " ++ toString MAX_GETUTXOS_OUTPOINTS ++
    ", tried: " ++ toString tried ++ ")"

/-- The output-format switch (rest.cpp lines 526-579). -/
def renderUtxo (rf : RetFormat) (cs : ChainState) (hits : List Bool) (outs : List CCoin) :
    Except RestErr UtxoReply :=
  match rf with
  | .RF_BINARY => .ok (.bin (restUtxoBinaryBody cs hits outs))
  | .RF_HEX => .ok (.hexText (restUtxoHexBody cs hits outs))
  | .RF_JSON => .ok (.json cs.height cs.tipHash (bitmapStringRep hits) outs)
  | .RF_UNDEF =>
    .error ⟨HTTP_NOT_FOUND, "output format not found (available: " ++ AvailableDataFormatsString ++ ")"⟩

/-- Query execution plus rendering (rest.cpp lines 486-579). -/
def utxoExec (cs : ChainState) (rf : RetFormat) (fCheckMemPool : Bool)
    (ops : List COutPoint) : Except RestErr UtxoReply :=
  renderUtxo rf cs (utxoLoop cs fCheckMemPool ops).1 (utxoLoop cs fCheckMemPool ops).2

/-- The full `rest_getutxos` handler (rest.cpp lines 389-583), with the
cardinality limit (lines 482-484) between input resolution and query
execution. -/
def rest_getutxos (cs : ChainState) (strURIPart : List Char) (strRequest : List Nat) :
    Except RestErr UtxoReply :=
  match rest_getutxos_parse strURIPart strRequest with
  | .error e => .error e
  | .ok (rf, fCheckMemPool, ops) =>
    if ops.length > MAX_GETUTXOS_OUTPOINTS then
      .error ⟨HTTP_INTERNAL_SERVER_ERROR, maxOutpointsMsg ops.length⟩
    else utxoExec cs rf fCheckMemPool ops

/-! ## Lock-scope trace of the query and render phases (rest.cpp 491-554)

The shared-state accesses of the handler in program order.  The
`LOCK2(cs_main, mempool.cs)` block (lines 491-523) contains exactly the
per-outpoint lookups; every render branch then reads
`chainActive.Height()` and `chainActive.Tip()->GetBlockHash()` (lines
531, 540, 552-553) after that block has closed. -/

/-- Shared chain/mempool state accesses made by `rest_getutxos`. -/
inductive ChainAccessEvent
  | lockAcquire
  | coinsLookup (hash : Nat)
  | lockRelease
  | readChainHeight
  | readChainTipHash
deriving DecidableEq, Repr

/-- The accesses inside the locked critical section (rest.cpp lines
491-523): acquire, one lookup per outpoint in order, release. -/
def utxoCriticalSectionTrace (ops : List COutPoint) : List ChainAccessEvent :=
  ChainAccessEvent.lockAcquire ::
    (ops.map (fun op => ChainAccessEvent.coinsLookup op.hash) ++ [ChainAccessEvent.lockRelease])

/-- The chain reads of the render switch (rest.cpp lines 526-579): every
reachable branch (binary line 531, hex line 540, JSON lines 552-553)
reads the chain height then the tip hash; the unreachable undefined
branch reads nothing. -/
def utxoRenderChainReads (rf : RetFormat) : List ChainAccessEvent :=
  match rf with
  | .RF_UNDEF => []
  | _ => [ChainAccessEvent.readChainHeight, ChainAccessEvent.readChainTipHash]

/-- The access trace of the whole query-plus-render phase in program
order (rest.cpp lines 486-579). -/
def utxoHandlerChainTrace (ops : List COutPoint) (rf : RetFormat) : List ChainAccessEvent :=
  utxoCriticalSectionTrace ops ++ utxoRenderChainReads rf

/-! ## Dispatcher (rest.cpp lines 638-680) -/

/-- A route handler as seen by the dispatcher: it consumes the residual
URI and either finishes (returning the keep-alive continuation flag it
passed to its reply, rest.cpp `return true`) or throws a `RestErr`. -/
def RouteHandler : Type := List Char → Except RestErr Bool

/-- What the dispatcher writes to the connection. -/
inductive DispatchReply
  | handled (keepAlive : Bool)
  | errorText (status : Nat) (body : String) (contentType : String)
  | notFound
deriving DecidableEq, Repr

/-- `pat` a literal character-for-character start of `s`. -/
def hasPre : List Char → List Char → Bool
  | [], _ => true
  | _ :: _, [] => false
  | p :: ps, c :: cs => p == c && hasPre ps cs

/-- The route scan (rest.cpp lines 666-672): first table entry whose
pattern literally starts the URI wins. -/
def findRoute (routes : List (List Char × RouteHandler)) (uri : List Char) :
    Option (List Char × RouteHandler) :=
  routes.find? (fun r => hasPre r.1 uri)

/-- `HTTPReq_REST` (rest.cpp lines 655-680): warm-up gate, route scan,
handler invocation; a thrown `RestErr` is rendered as a plain-text body
(message plus CRLF, carried status, line 674) and the function returns
`false`; a dispatch miss writes the 404 error page and returns `false`;
a completed handler's continuation flag is returned unchanged.  The
returned `Bool` is the keep-alive continuation flag. -/
def HTTPReq_REST (warmupMsg : Option String) (routes : List (List Char × RouteHandler))
    (strURI : List Char) : DispatchReply × Bool :=
  match warmupMsg with
  | some m =>
    (.errorText HTTP_SERVICE_UNAVAILABLE
      ("Service temporarily unavailable: " ++ m ++ "\r\n") "text/plain", false)
  | none =>
    match findRoute routes strURI with
    | some r =>
      match r.2 (strURI.drop r.1.length) with
      | .ok b => (.handled b, b)
      | .error re => (.errorText re.status (re.message ++ "\r\n") "text/plain", false)
    | none => (.notFound, false)

/-! # Theorems -/

/-! ## Helper lemmas -/

theorem take_len_append {α : Type} (xs ys : List α) : (xs ++ ys).take xs.length = xs := by
  induction xs with
  | nil => simp
  | cons a rest ih => simp [ih]

theorem rfindChar_eq_none (c : Char) (s : List Char) (h : c ∉ s) : rfindChar c s = none := by
  induction s with
  | nil => rfl
  | cons a rest ih =>
    have ha : a ≠ c := fun hac => h (by simp [hac])
    have hr : c ∉ rest := fun hm => h (List.mem_cons_of_mem _ hm)
    simp [rfindChar, ih hr, ha]

theorem rfindChar_append (c : Char) (param suff : List Char) (h : c ∉ suff) :
    rfindChar c (param ++ c :: suff) = some param.length := by
  induction param with
  | nil => simp [rfindChar, rfindChar_eq_none c suff h]
  | cons a rest ih => simp [rfindChar, ih]

theorem lookupRfName_eq_spec (suff : List Char) :
    lookupRfName rfNames suff = specFormatOfSuffix suff := by
  simp only [rfNames, lookupRfName, specFormatOfSuffix]

/-! ## C7: format negotiation -/

/-- C7: `ParseDataFormat` splits at the last '.': with no dot the whole
string is the parameter and the format is undefined; otherwise the
parameter is the part before the last dot and the suffix after it is
matched case-sensitively against "", "bin", "hex", "json", unknown
suffixes yielding the undefined format while still truncating. -/
theorem parseDataFormat_splits_at_last_dot (s param suff : List Char) :
    ('.' ∉ s → ParseDataFormat s = (s, RetFormat.RF_UNDEF)) ∧
    (s = param ++ '.' :: suff → '.' ∉ suff →
      ParseDataFormat s = (param, specFormatOfSuffix suff)) := by
  constructor
  · intro h
    unfold ParseDataFormat
    rw [rfindChar_eq_none '.' s h]
  · intro hs h
    subst hs
    unfold ParseDataFormat
    rw [rfindChar_append '.' param suff h]
    have htake : (param ++ '.' :: suff).take param.length = param := take_len_append param _
    have hdrop : (param ++ '.' :: suff).drop (param.length + 1) = suff := by
      have : param ++ '.' :: suff = (param ++ ['.']) ++ suff := by simp
      rw [this]
      have hlen : (param ++ ['.']).length = param.length + 1 := by simp
      rw [← hlen, List.drop_left]
    simp only [htake, hdrop, lookupRfName_eq_spec]

/-- Witness for C7, instantiating the spec's three examples. -/
theorem parseDataFormat_splits_witness :
    ParseDataFormat "abc.json".toList = ("abc".toList, RetFormat.RF_JSON) ∧
    ParseDataFormat "abc".toList = ("abc".toList, RetFormat.RF_UNDEF) ∧
    ParseDataFormat "abc.xyz".toList = ("abc".toList, RetFormat.RF_UNDEF) := by
  refine ⟨?_, ?_, ?_⟩
  · rw [(parseDataFormat_splits_at_last_dot "abc.json".toList "abc".toList "json".toList).2
      (by decide) (by decide)]
    decide
  · exact (parseDataFormat_splits_at_last_dot "abc".toList [] []).1 (by decide)
  · rw [(parseDataFormat_splits_at_last_dot "abc.xyz".toList "abc".toList "xyz".toList).2
      (by decide) (by decide)]
    decide

/-! ## C8: name decoding -/

theorem hexDigitValue_lt_16 (c : Nat) : hexDigitValue c < 16 := by
  unfold hexDigitValue
  split_ifs <;> omega

set_option maxRecDepth 8000 in
set_option maxHeartbeats 2000000 in
theorem hexCharStep_small : ∀ v < 16, ∀ c < 256,
    hexCharStep v c =
      if isHexDigitByte c then some ((v <<< 4) + hexDigitValue c) else none := by
  decide

theorem decodeHexPair_eq (c1 c2 : Nat) (h1 : c1 < 256) (h2 : c2 < 256) :
    decodeHexPair c1 c2 =
      if isHexDigitByte c1 ∧ isHexDigitByte c2 then
        some (16 * hexDigitValue c1 + hexDigitValue c2)
      else none := by
  unfold decodeHexPair
  rw [hexCharStep_small 0 (by omega) c1 h1]
  by_cases hx1 : isHexDigitByte c1
  · rw [if_pos hx1]
    show hexCharStep ((0 : Nat) <<< 4 + hexDigitValue c1) c2 = _
    rw [Nat.zero_shiftLeft, Nat.zero_add]
    rw [hexCharStep_small (hexDigitValue c1) (hexDigitValue_lt_16 c1) c2 h2]
    by_cases hx2 : isHexDigitByte c2
    · rw [if_pos hx2, if_pos ⟨hx1, hx2⟩]
      congr 1
      rw [Nat.shiftLeft_eq]
      ring
    · rw [if_neg hx2, if_neg (fun h => hx2 h.2)]
  · rw [if_neg hx1, if_neg (fun h => hx1 h.1)]

theorem DecodeName_cons (c : Nat) (rest : List Nat) :
    DecodeName (c :: rest) =
      if c = 43 then (DecodeName rest).map (fun d => 32 :: d)
      else if c = 37 then
        match rest with
        | c1 :: c2 :: rest2 =>
          match decodeHexPair c1 c2 with
          | none => none
          | some v => (DecodeName rest2).map (fun d => v :: d)
        | _ => none
      else (DecodeName rest).map (fun d => c :: d) := by
  rw [DecodeName.eq_def]

theorem decodeNameSpec_cons (c : Nat) (rest : List Nat) :
    decodeNameSpec (c :: rest) =
      if c = 43 then (decodeNameSpec rest).map (fun d => 32 :: d)
      else if c = 37 then
        match rest with
        | c1 :: c2 :: rest2 =>
          if isHexDigitByte c1 ∧ isHexDigitByte c2 then
            (decodeNameSpec rest2).map (fun d => (16 * hexDigitValue c1 + hexDigitValue c2) :: d)
          else none
        | _ => none
      else (decodeNameSpec rest).map (fun d => c :: d) := by
  rw [decodeNameSpec.eq_def]

/-- C8: `DecodeName` on byte strings agrees everywhere with the
specification's decoder: '+' to space, '%' plus two case-insensitive hex
digits to that byte, everything else verbatim, failure on a '%' followed
by fewer than two characters or a non-hex character, output the
concatenation of the decodings in input order. -/
theorem decodeName_matches_spec (s : List Nat) (hb : ∀ b ∈ s, b < 256) :
    DecodeName s = decodeNameSpec s := by
  have H : ∀ (n : Nat) (t : List Nat), t.length ≤ n → (∀ b ∈ t, b < 256) →
      DecodeName t = decodeNameSpec t := by
    intro n
    induction n with
    | zero =>
      intro t ht _
      have : t = [] := List.length_eq_zero.mp (Nat.le_zero.mp ht)
      subst this
      rfl
    | succ n ih =>
      intro t ht hbt
      match t with
      | [] => rfl
      | c :: rest =>
        have hrest : rest.length ≤ n := by
          simp only [List.length_cons] at ht
          omega
        have hbrest : ∀ b ∈ rest, b < 256 := fun b hm => hbt b (List.mem_cons_of_mem _ hm)
        rw [DecodeName_cons, decodeNameSpec_cons]
        by_cases h43 : c = 43
        · simp only [if_pos h43]
          rw [ih rest hrest hbrest]
        · by_cases h37 : c = 37
          · simp only [if_neg h43, if_pos h37]
            match rest with
            | [] => rfl
            | [c1] => rfl
            | c1 :: c2 :: rest2 =>
              have hc1 : c1 < 256 := hbt c1 (by simp)
              have hc2 : c2 < 256 := hbt c2 (by simp)
              simp only
              rw [decodeHexPair_eq c1 c2 hc1 hc2]
              by_cases hx : isHexDigitByte c1 ∧ isHexDigitByte c2
              · rw [if_pos hx, if_pos hx]
                have hrest2 : rest2.length ≤ n := by
                  simp only [List.length_cons] at ht
                  omega
                have hbrest2 : ∀ b ∈ rest2, b < 256 := fun b hm => hbt b (by simp [hm])
                rw [ih rest2 hrest2 hbrest2]
              · rw [if_neg hx, if_neg hx]
          · simp only [if_neg h43, if_neg h37]
            rw [ih rest hrest hbrest]
  exact H s.length s le_rfl hb

/-- Witness for C8 at the spec's examples: "a+b%20c" decodes to
`a SP b SP c` and the truncated "a%2" fails. -/
theorem decodeName_matches_spec_witness :
    DecodeName [97, 43, 98, 37, 50, 48, 99] = decodeNameSpec [97, 43, 98, 37, 50, 48, 99] ∧
    decodeNameSpec [97, 43, 98, 37, 50, 48, 99] = some [97, 32, 98, 32, 99] ∧
    DecodeName [97, 37, 50] = none :=
  ⟨decodeName_matches_spec [97, 43, 98, 37, 50, 48, 99] (by decide), by decide, by decide⟩

/-! ## C1: one bit per outpoint, one record per set bit -/

theorem utxoLoopGo_spec (cs : ChainState) (check : Bool) (ops : List COutPoint)
    (hits : List Bool) (outs : List CCoin) :
    utxoLoopGo cs check ops hits outs =
      (hits ++ ops.map (fun op => (outpointHit cs check op).isSome),
       outs ++ ops.filterMap (outpointHit cs check)) := by
  induction ops generalizing hits outs with
  | nil => simp [utxoLoopGo]
  | cons op rest ih =>
    rw [utxoLoopGo.eq_def]
    cases h : outpointHit cs check op with
    | some coin =>
      simp only [h]
      rw [ih]
      simp [h, List.filterMap_cons]
    | none =>
      simp only [h]
      rw [ih]
      simp [h, List.filterMap_cons]

theorem filterMap_length_eq_count {α β : Type} (f : α → Option β) (l : List α) :
    (l.filterMap f).length = (l.map (fun a => (f a).isSome)).count true := by
  induction l with
  | nil => rfl
  | cons a rest ih =>
    cases h : f a with
    | some b => simp [List.filterMap_cons, h, ih, List.count_cons]
    | none => simp [List.filterMap_cons, h, ih, List.count_cons]

/-- C1: the spentness loop appends exactly one bit per queried outpoint in
input order (so the bitmap has exactly N bits for N outpoints); a miss is
a clear bit contributing no record, and the hit list holds exactly one
`CCoin` per set bit, in the same relative order as the set bits. -/
theorem utxo_bitmap_one_bit_per_outpoint (cs : ChainState) (check : Bool)
    (ops : List COutPoint) :
    (utxoLoop cs check ops).1.length = ops.length ∧
    (utxoLoop cs check ops).1 = ops.map (fun op => (outpointHit cs check op).isSome) ∧
    (utxoLoop cs check ops).2 = ops.filterMap (outpointHit cs check) ∧
    (utxoLoop cs check ops).2.length = (utxoLoop cs check ops).1.count true := by
  have h := utxoLoopGo_spec cs check ops [] []
  unfold utxoLoop
  rw [h]
  refine ⟨?_, ?_, ?_, ?_⟩ <;> simp [filterMap_length_eq_count]

/-! ## C10: mempool spent-pruning is applied regardless of the flag -/

theorem pruneVout_get? (l : List (Option CTxOut)) (spent : Nat → Bool) (j i : Nat) :
    (pruneVout spent j l).get? i =
      (l.get? i).map (fun o => if spent (j + i) then none else o) := by
  induction l generalizing j i with
  | nil => simp [pruneVout]
  | cons o rest ih =>
    cases i with
    | zero => simp [pruneVout]
    | succ i =>
      simp only [pruneVout, List.get?_cons_succ]
      rw [ih (j + 1) i]
      have : j + 1 + i = j + (i + 1) := by omega
      rw [this]

/-- C10: whenever the mempool has recorded a spend of the queried
outpoint, the per-outpoint hit test reports a miss (clear bit, no
`CoinRecord`) for it, because `mempool.pruneSpent` runs on every found
record before hit-testing, whether or not the check-mempool flag is
set. -/
theorem utxo_mempool_prune_unconditional (cs : ChainState) (check : Bool) (op : COutPoint)
    (hspent : cs.mempoolSpent op.hash op.n = true) :
    outpointHit cs check op = none := by
  unfold outpointHit
  cases hv : viewGetCoins cs check op.hash with
  | none => rfl
  | some coins0 =>
    simp only [mempoolPruneSpent]
    have h := pruneVout_get? coins0.vout (cs.mempoolSpent op.hash) 0 op.n
    rw [Nat.zero_add] at h
    cases hg : coins0.vout.get? op.n with
    | none =>
      have h2 : (pruneVout (cs.mempoolSpent op.hash) 0 coins0.vout).get? op.n = none := by
        rw [h, hg]
        rfl
      rw [h2]
    | some o =>
      have h2 : (pruneVout (cs.mempoolSpent op.hash) 0 coins0.vout).get? op.n = some none := by
        rw [h, hg, hspent]
        rfl
      rw [h2]

/-- Witness for C10: a chain state whose confirmed view holds an unspent
output at (txid 1, index 0) that the mempool has spent; the hit test
misses with the flag both clear and set, and without the mempool spend
the same outpoint is a hit. -/
def c10csSpent : ChainState :=
  ⟨fun h => if h = 1 then some ⟨2, 10, [some ⟨50, [81]⟩]⟩ else none,
   fun _ => none, fun h i => h == 1 && i == 0, 7, 99⟩

def c10csClean : ChainState :=
  ⟨fun h => if h = 1 then some ⟨2, 10, [some ⟨50, [81]⟩]⟩ else none,
   fun _ => none, fun _ _ => false, 7, 99⟩

theorem utxo_mempool_prune_witness :
    outpointHit c10csSpent false ⟨1, 0⟩ = none ∧
    outpointHit c10csSpent true ⟨1, 0⟩ = none ∧
    outpointHit c10csClean false ⟨1, 0⟩ = some ⟨2, 10, ⟨50, [81]⟩⟩ :=
  ⟨utxo_mempool_prune_unconditional c10csSpent false ⟨1, 0⟩ (by decide),
   utxo_mempool_prune_unconditional c10csSpent true ⟨1, 0⟩ (by decide),
   by decide⟩

/-! ## C5: where the height and tip hash are read -/

/-- C5 (refuting evidence, see the results): in the handler's access
trace the chain-height and tip-hash reads never occur inside the locked
critical section; for every reachable output format they happen strictly
after the lock release, immediately following the critical section. -/
theorem utxo_height_tip_read_after_lock_release (ops : List COutPoint) :
    (ChainAccessEvent.readChainHeight ∉ utxoCriticalSectionTrace ops ∧
     ChainAccessEvent.readChainTipHash ∉ utxoCriticalSectionTrace ops) ∧
    utxoHandlerChainTrace ops .RF_BINARY =
      utxoCriticalSectionTrace ops ++
        [ChainAccessEvent.readChainHeight, ChainAccessEvent.readChainTipHash] ∧
    utxoHandlerChainTrace ops .RF_HEX =
      utxoCriticalSectionTrace ops ++
        [ChainAccessEvent.readChainHeight, ChainAccessEvent.readChainTipHash] ∧
    utxoHandlerChainTrace ops .RF_JSON =
      utxoCriticalSectionTrace ops ++
        [ChainAccessEvent.readChainHeight, ChainAccessEvent.readChainTipHash] := by
  refine ⟨⟨?_, ?_⟩, rfl, rfl, rfl⟩ <;> simp [utxoCriticalSectionTrace]

/-! ## C6: binary and hex render the same serialization -/

set_option maxRecDepth 8000 in
set_option maxHeartbeats 2000000 in
theorem hexByteTableFacts : ∀ x < 256,
    hexCharIdx (hexmapChars.getD (x >>> 4) '0') = some (x >>> 4) ∧
    hexCharIdx (hexmapChars.getD (x &&& 15) '0') = some (x &&& 15) ∧
    (x >>> 4) * 16 + (x &&& 15) = x ∧
    hexmapChars.getD (x >>> 4) '0' ∈ hexmapChars ∧
    hexmapChars.getD (x &&& 15) '0' ∈ hexmapChars := by
  decide

theorem hexStr_roundtrip (bs : List Nat) :
    hexPairsToBytes (hexStr bs) = some (bs.map (fun b => b % 256)) := by
  induction bs with
  | nil => rfl
  | cons b rest ih =>
    have hf := hexByteTableFacts (b % 256) (Nat.mod_lt _ (by omega))
    rw [hexStr.eq_def]
    simp only
    rw [hexPairsToBytes.eq_def]
    simp only [hf.1, hf.2.1]
    rw [ih]
    simp only [Option.map_some, List.map_cons]
    rw [hf.2.2.1]
    rfl

theorem hexStr_chars_in_table (bs : List Nat) : ∀ c ∈ hexStr bs, c ∈ hexmapChars := by
  induction bs with
  | nil => intro c hc; cases hc
  | cons b rest ih =>
    intro c hc
    have hf := hexByteTableFacts (b % 256) (Nat.mod_lt _ (by omega))
    rw [hexStr.eq_def] at hc
    simp only [List.mem_cons] at hc
    rcases hc with h1 | h2 | h3
    · rw [h1]; exact hf.2.2.2.1
    · rw [h2]; exact hf.2.2.2.2
    · exact ih c h3

/-- C6: the hex response body is exactly the hex text of the binary
response body plus a trailing newline; every character of that text is a
lowercase hex digit, and decoding the pairs recovers the binary bytes,
so the two formats carry byte-for-byte the same serialization. -/
theorem utxo_hex_binary_same_serialization (cs : ChainState) (hits : List Bool)
    (outs : List CCoin) :
    restUtxoHexBody cs hits outs = hexStr (restUtxoBinaryBody cs hits outs) ++ ['\n'] ∧
    (∀ c ∈ hexStr (restUtxoBinaryBody cs hits outs), c ∈ hexmapChars) ∧
    hexPairsToBytes (hexStr (restUtxoBinaryBody cs hits outs)) =
      some ((restUtxoBinaryBody cs hits outs).map (fun b => b % 256)) :=
  ⟨rfl, hexStr_chars_in_table _, hexStr_roundtrip _⟩

/-- Witness for C6 at a concrete chain state (height 51 = 0x33, so the
response's first hex character is '3'). -/
def c6cs : ChainState := ⟨fun _ => none, fun _ => none, fun _ _ => false, 51, 5⟩

theorem utxo_hex_binary_witness :
    '3' ∈ hexmapChars ∧
    hexPairsToBytes (hexStr (restUtxoBinaryBody c6cs [true] [])) =
      some ((restUtxoBinaryBody c6cs [true] []).map (fun b => b % 256)) ∧
    restUtxoHexBody c6cs [true] [] = hexStr (restUtxoBinaryBody c6cs [true] []) ++ ['\n'] :=
  ⟨(utxo_hex_binary_same_serialization c6cs [true] []).2.1 '3' (by decide),
   (utxo_hex_binary_same_serialization c6cs [true] []).2.2,
   (utxo_hex_binary_same_serialization c6cs [true] []).1⟩

/-! ## Input-resolution lemmas shared by C2, C3, C4 -/

theorem parseUriChannel_ok_nonempty (ps : List (List Char)) (c : Bool) (ops : List COutPoint)
    (h : parseUriChannel ps = .ok (c, ops)) : ops ≠ [] := by
  simp only [parseUriChannel] at h
  split at h
  · exact absurd h (by simp)
  · split at h
    · rename_i v hv hlen
      injection h with h2
      have hveq : v = ops := by
        have h3 := congrArg Prod.snd h2
        simpa using h3
      subst hveq
      intro hnil
      rw [hnil] at hlen
      simp at hlen
    · exact absurd h (by simp)

theorem rest_getutxos_parse_eq (uri : List Char) (body : List Nat) :
    rest_getutxos_parse uri body =
      if body.length = 0 ∧ (uriPartsOf (ParseDataFormat uri).1).length = 0 then
        .error emptyReqErr
      else
        match uriChannel (uriPartsOf (ParseDataFormat uri).1) with
        | .error e => .error e
        | .ok uriRes => bodyPhase (ParseDataFormat uri).2 uriRes body := by
  rfl

/-! ## C4: JSON format never touches the body -/

/-- C4: for a JSON-declared format the body channel is rejected outright:
the parse result is a function of the URI alone (so a non-empty body is
never deserialized), a request whose URI carries no parts is the hard
empty-request failure whatever the body holds, and any successful parse
got its outpoints (a nonempty list) from the URI channel. -/
theorem rest_getutxos_json_ignores_body (uri : List Char) (p : List Char)
    (hf : ParseDataFormat uri = (p, .RF_JSON)) :
    (∀ b1 b2 : List Nat, rest_getutxos_parse uri b1 = rest_getutxos_parse uri b2) ∧
    (uriPartsOf p = [] → ∀ b : List Nat,
      rest_getutxos_parse uri b = .error ⟨HTTP_INTERNAL_SERVER_ERROR, "Error: empty request"⟩) ∧
    (∀ (b : List Nat) (rf : RetFormat) (c : Bool) (ops : List COutPoint),
      rest_getutxos_parse uri b = .ok (rf, c, ops) → ops ≠ []) := by
  have key : ∀ b : List Nat,
      rest_getutxos_parse uri b =
        match uriChannel (uriPartsOf p) with
        | .error e => .error e
        | .ok none => .error emptyReqErr
        | .ok (some (c, ops)) => .ok (.RF_JSON, c, ops) := by
    intro b
    rw [rest_getutxos_parse_eq, hf]
    simp only
    by_cases hparts : uriPartsOf p = []
    · rw [hparts]
      simp only [uriChannel, List.length_nil, gt_iff_lt, Nat.lt_irrefl, if_false]
      by_cases hb : b.length = 0
      all_goals {
        simp [bodyPhase]
      }
    · have hlen : (uriPartsOf p).length ≠ 0 := fun hh => hparts (List.length_eq_zero.mp hh)
      rw [if_neg (fun hP => hlen hP.2)]
      cases hc : uriChannel (uriPartsOf p) with
      | error e => rfl
      | ok uriRes =>
        cases uriRes with
        | none => simp [bodyPhase]
        | some pr2 =>
          cases pr2 with
          | mk c ops => simp [bodyPhase]
  refine ⟨?_, ?_, ?_⟩
  · intro b1 b2
    rw [key b1, key b2]
  · intro hparts b
    rw [key b, hparts]
    rfl
  · intro b rf c ops hok
    rw [key b] at hok
    cases hc : uriChannel (uriPartsOf p) with
    | error e => rw [hc] at hok; exact absurd hok (by simp)
    | ok uriRes =>
      rw [hc] at hok
      cases uriRes with
      | none => exact absurd hok (by simp)
      | some pr2 =>
        cases pr2 with
        | mk c2 ops2 =>
          simp only at hok
          injection hok with h2
          have hops : ops2 = ops := by
            have h3 := congrArg (fun t => t.2.2) h2
            simpa using h3
          subst hops
          simp only [uriChannel] at hc
          split at hc
          · cases hpc : parseUriChannel (uriPartsOf p) with
            | error e => rw [hpc] at hc; exact absurd hc (by simp [Except.map])
            | ok v =>
              rw [hpc] at hc
              simp only [Except.map] at hc
              injection hc with h4
              injection h4 with h5
              cases v with
              | mk vc vops =>
                have hvops : vops = ops2 := by
                  have h6 := congrArg Prod.snd h5
                  simpa using h6
                subst hvops
                exact parseUriChannel_ok_nonempty _ _ _ hpc
          · exact absurd hc (by simp)

/-- Witness for C4: a bare ".json" request fails as an empty request even
with a non-empty body, and with a URI-supplied outpoint the parse result
does not depend on the body. -/
theorem rest_getutxos_json_ignores_body_witness :
    rest_getutxos_parse ".json".toList [1] =
      .error ⟨HTTP_INTERNAL_SERVER_ERROR, "Error: empty request"⟩ ∧
    rest_getutxos_parse "/aa-0.json".toList [7] = rest_getutxos_parse "/aa-0.json".toList [] :=
  ⟨(rest_getutxos_json_ignores_body ".json".toList [] (by decide)).2.1 (by decide) [1],
   (rest_getutxos_json_ignores_body "/aa-0.json".toList "/aa-0".toList (by decide)).1 [7] []⟩

/-! ## C2: channel combination -/

/-- The chain state used by the C2 counterexample. -/
def c2cs : ChainState := ⟨fun _ => none, fun _ => none, fun _ _ => false, 7, 99⟩

/-- C2 counterexample: a JSON-format request carrying both a URI-supplied
outpoint ("aa-0") and a non-empty body does NOT fail; the handler
silently uses the URI channel and answers successfully, so the claim's
"in every declared format" is false for JSON. -/
theorem rest_getutxos_json_dual_channel_accepted :
    rest_getutxos c2cs "/aa-0.json".toList [49] = .ok (.json 7 99 ['0'] []) ∧
    ([49] : List Nat) ≠ [] := by
  constructor
  · decide
  · decide

/-- C2 (amended): for the binary- and hex-declared formats — the ones
whose body channel is deserialized — a request with at least one
URI-supplied outpoint and a non-empty effective body (for hex, non-empty
after hex decoding) fails with the internal-error channel-combination
message before the body is deserialized. -/
theorem rest_getutxos_dual_channel_bin_hex (uri : List Char) (body : List Nat)
    (c : Bool) (ops : List COutPoint)
    (hu : uriChannel (uriPartsOf (ParseDataFormat uri).1) = .ok (some (c, ops))) :
    ((ParseDataFormat uri).2 = .RF_BINARY → body ≠ [] →
      rest_getutxos_parse uri body = .error ⟨HTTP_INTERNAL_SERVER_ERROR,
        "Combination of URI scheme inputs and raw post data is not allowed"⟩) ∧
    ((ParseDataFormat uri).2 = .RF_HEX → hexDecodeBody body ≠ [] →
      rest_getutxos_parse uri body = .error ⟨HTTP_INTERNAL_SERVER_ERROR,
        "Combination of URI scheme inputs and raw post data is not allowed"⟩) := by
  have huri : (uriPartsOf (ParseDataFormat uri).1).length ≠ 0 := by
    intro hlen
    have hnil : uriPartsOf (ParseDataFormat uri).1 = [] := List.length_eq_zero.mp hlen
    rw [hnil] at hu
    simp [uriChannel] at hu
  constructor
  · intro hrf hbody
    rw [rest_getutxos_parse_eq]
    rw [if_neg (fun hP => huri hP.2)]
    rw [hu, hrf]
    simp only [bodyPhase, Option.isSome_some, Option.map_some, Option.getD_some]
    simp only [binHexBody]
    rw [if_pos (List.length_pos.mpr hbody)]
    rfl
  · intro hrf hbody
    have hbody0 : body ≠ [] := by
      intro hb
      rw [hb] at hbody
      exact hbody rfl
    rw [rest_getutxos_parse_eq]
    rw [if_neg (fun hP => huri hP.2)]
    rw [hu, hrf]
    simp only [bodyPhase, Option.isSome_some, Option.map_some, Option.getD_some]
    simp only [binHexBody]
    rw [if_pos (List.length_pos.mpr hbody)]
    rfl

/-- Witness for the amended C2 in both affected formats. -/
theorem rest_getutxos_dual_channel_witness :
    rest_getutxos_parse "/aa-0.bin".toList [1] = .error ⟨HTTP_INTERNAL_SERVER_ERROR,
      "Combination of URI scheme inputs and raw post data is not allowed"⟩ ∧
    rest_getutxos_parse "/aa-0.hex".toList [48, 49] = .error ⟨HTTP_INTERNAL_SERVER_ERROR,
      "Combination of URI scheme inputs and raw post data is not allowed"⟩ :=
  ⟨(rest_getutxos_dual_channel_bin_hex "/aa-0.bin".toList [1] false [⟨170, 0⟩]
      (by decide)).1 (by decide) (by decide),
   (rest_getutxos_dual_channel_bin_hex "/aa-0.hex".toList [48, 49] false [⟨170, 0⟩]
      (by decide)).2 (by decide) (by decide)⟩

/-! ## C3: the 15-outpoint limit -/

/-- C3: once input resolution has produced the outpoint list, more than
15 outpoints fail with the internal-error message naming the maximum
(15) and the attempted count, identically for every chain state (the
failure precedes any chain-state lookup); at most 15 outpoints (so in
particular exactly 15) pass the check and reach query execution. -/
theorem rest_getutxos_outpoint_limit (cs : ChainState) (uri : List Char) (body : List Nat)
    (rf : RetFormat) (c : Bool) (ops : List COutPoint)
    (hparse : rest_getutxos_parse uri body = .ok (rf, c, ops)) :
    (ops.length > 15 →
      rest_getutxos cs uri body =
        .error ⟨HTTP_INTERNAL_SERVER_ERROR,
          "Error: max outpoints exceeded (max: 15, tried: " ++ toString ops.length ++ ")"⟩) ∧
    (ops.length ≤ 15 → rest_getutxos cs uri body = utxoExec cs rf c ops) := by
  unfold rest_getutxos
  rw [hparse]
  constructor
  · intro h
    show (if ops.length > MAX_GETUTXOS_OUTPOINTS then
        Except.error ⟨HTTP_INTERNAL_SERVER_ERROR, maxOutpointsMsg ops.length⟩
      else utxoExec cs rf c ops) = _
    rw [if_pos (by simpa [MAX_GETUTXOS_OUTPOINTS] using h)]
    rfl
  · intro h
    show (if ops.length > MAX_GETUTXOS_OUTPOINTS then
        Except.error ⟨HTTP_INTERNAL_SERVER_ERROR, maxOutpointsMsg ops.length⟩
      else utxoExec cs rf c ops) = _
    rw [if_neg (by simp only [MAX_GETUTXOS_OUTPOINTS]; omega)]

/-- The chain state and URIs used by the C3 witness. -/
def c3cs : ChainState := ⟨fun _ => none, fun _ => none, fun _ _ => false, 0, 0⟩

def c3uri16 : List Char := "/0/0/0/0/0/0/0/0/0/0/0/0/0/0/0/0.json".toList

def c3uri15 : List Char := "/0/0/0/0/0/0/0/0/0/0/0/0/0/0/0.json".toList

/-- Witness for C3: sixteen outpoints fail with the exact message naming
max 15 and tried 16, for a concrete chain state; fifteen pass on to
query execution. -/
theorem rest_getutxos_outpoint_limit_witness :
    rest_getutxos c3cs c3uri16 [] = .error ⟨HTTP_INTERNAL_SERVER_ERROR,
      "Error: max outpoints exceeded (max: 15, tried: 16)"⟩ ∧
    rest_getutxos c3cs c3uri15 [] =
      utxoExec c3cs .RF_JSON false (List.replicate 15 ⟨0, 0⟩) := by
  constructor
  · have h := (rest_getutxos_outpoint_limit c3cs c3uri16 [] .RF_JSON false
      (List.replicate 16 ⟨0, 0⟩) (by decide)).1 (by decide)
    rw [h]
    decide
  · exact (rest_getutxos_outpoint_limit c3cs c3uri15 [] .RF_JSON false
      (List.replicate 15 ⟨0, 0⟩) (by decide)).2 (by decide)

/-! ## C9: dispatcher error rendering and the continuation flag -/

/-- The route table used by the C9 counterexample: one route whose
handler throws a typed bad-request error. -/
def c9routes : List (List Char × RouteHandler) :=
  [("/rest/tx/".toList, fun _ => .error ⟨HTTP_BAD_REQUEST, "Invalid hash: zz"⟩)]

/-- C9 counterexample: after the dispatcher renders a handler-thrown
error (here a matched route, not a dispatch miss) it returns `false` —
the same keep-alive-terminating flag as a dispatch miss — so "the
connection is allowed to continue serving further requests" with "only a
top-level dispatch miss" terminating is false on this code. -/
theorem dispatcher_handler_error_terminates :
    (HTTPReq_REST none c9routes "/rest/tx/zz.json".toList).2 = false ∧
    (HTTPReq_REST none c9routes "/rest/tx/zz.json".toList).1 ≠ DispatchReply.notFound ∧
    (HTTPReq_REST none c9routes "/rest/tx/zz.json".toList).1 =
      .errorText HTTP_BAD_REQUEST "Invalid hash: zz\r\n" "text/plain" := by
  refine ⟨rfl, by decide, rfl⟩

/-- C9 (amended): every typed error thrown by a matched handler is caught
at the dispatcher — the single rendering point — and written as a
plain-text body carrying the error's status code with CRLF appended, after
which the dispatcher returns the continuation flag `false`, terminating
the keep-alive loop exactly as a dispatch miss does; the connection
continues only when a matched handler completes and returns `true`, and
the warm-up failure is rendered the same way with status 503. -/
theorem dispatcher_single_render_point (routes : List (List Char × RouteHandler))
    (uri : List Char) (pat : List Char) (h : RouteHandler)
    (hfind : findRoute routes uri = some (pat, h)) :
    (∀ re : RestErr, h (uri.drop pat.length) = .error re →
      HTTPReq_REST none routes uri =
        (.errorText re.status (re.message ++ "\r\n") "text/plain", false)) ∧
    (∀ b : Bool, h (uri.drop pat.length) = .ok b →
      HTTPReq_REST none routes uri = (.handled b, b)) ∧
    (∀ uri2 : List Char, findRoute routes uri2 = none →
      HTTPReq_REST none routes uri2 = (.notFound, false)) ∧
    (∀ m : String, HTTPReq_REST (some m) routes uri =
      (.errorText HTTP_SERVICE_UNAVAILABLE
        ("Service temporarily unavailable: " ++ m ++ "\r\n") "text/plain", false)) := by
  refine ⟨?_, ?_, ?_, ?_⟩
  · intro re hre
    unfold HTTPReq_REST
    rw [hfind]
    simp only
    rw [hre]
  · intro b hb
    unfold HTTPReq_REST
    rw [hfind]
    simp only
    rw [hb]
  · intro uri2 hmiss
    unfold HTTPReq_REST
    rw [hmiss]
  · intro m
    rfl

/-- The route table used by the C9 witness: an erroring route and a
succeeding route. -/
def c9wRoutes : List (List Char × RouteHandler) :=
  [(['a'], fun _ => .error ⟨HTTP_BAD_REQUEST, "x"⟩), (['b'], fun _ => .ok true)]

/-- Witness for the amended C9 at a concrete table, URI and handler. -/
theorem dispatcher_single_render_point_witness :
    HTTPReq_REST none c9wRoutes ['a', 'z'] =
      (.errorText HTTP_BAD_REQUEST ("x" ++ "\r\n") "text/plain", false) ∧
    HTTPReq_REST none c9wRoutes ['c'] = (.notFound, false) :=
  ⟨(dispatcher_single_render_point c9wRoutes ['a', 'z'] ['a']
      (fun _ => .error ⟨HTTP_BAD_REQUEST, "x"⟩) rfl).1 ⟨HTTP_BAD_REQUEST, "x"⟩ rfl,
   (dispatcher_single_render_point c9wRoutes ['a', 'z'] ['a']
      (fun _ => .error ⟨HTTP_BAD_REQUEST, "x"⟩) rfl).2.2.1 ['c'] rfl⟩

end RestGateway
